import Mathlib

/-!
Shallow embedding of the deterministic simulation core of the ggrs demo
(`src/ex_game.rs`): the simulation `State` and its `advance` function, the
save/load/advance request dispatcher of `Game`, the Fletcher-16 checksum,
and the local input encoder.  Rust `f32` arithmetic is modelled over the
real numbers; `f32::rem_euclid` and the float `%` operator are modelled
exactly (`remEuclid`, `rustRem`).  `u8`/`u16` arithmetic is modelled on
`Nat` with explicit `% 65536` where the source performs `u16` operations.
Serialization (`bincode`) is external to the repository and is passed in as
an abstract byte encoding `ser : State → List Nat` wherever the source
serializes.  Rendering and the connection-status display fields are not
part of the dispatcher and are not modelled.
-/

namespace ExGame

/-- The `FPS` constant from the source. -/
def FPS : Nat := 60

/-- The constant `CHECKSUM_PERIOD : i32 = 100`. -/
def CHECKSUM_PERIOD : Int := 100

/-- The constant `ARENA_HEIGHT : f32 = 800.0`. -/
noncomputable def ARENA_HEIGHT : ℝ := 800.0

/-- The constant `ARENA_WIDTH : f32 = 800.0`. -/
noncomputable def ARENA_WIDTH : ℝ := 800.0

/-- The bit `INPUT_UP : u8 = 1 << 0`. -/
def INPUT_UP : Nat := 1 <<< 0

/-- The bit `INPUT_DOWN : u8 = 1 << 1`. -/
def INPUT_DOWN : Nat := 1 <<< 1

/-- The bit `INPUT_LEFT : u8 = 1 << 2`. -/
def INPUT_LEFT : Nat := 1 <<< 2

/-- The bit `INPUT_RIGHT : u8 = 1 << 3`. -/
def INPUT_RIGHT : Nat := 1 <<< 3

/-- The constant `MOVEMENT_SPEED : f32 = 15.0 / FPS as f32`. -/
noncomputable def MOVEMENT_SPEED : ℝ := 15.0 / (FPS : ℝ)

/-- The constant `ROTATION_SPEED : f32 = 2.5 / FPS as f32`. -/
noncomputable def ROTATION_SPEED : ℝ := 2.5 / (FPS : ℝ)

/-- The constant `MAX_SPEED : f32 = 7.0`. -/
noncomputable def MAX_SPEED : ℝ := 7.0

/-- The constant `FRICTION : f32 = 0.98`. -/
noncomputable def FRICTION : ℝ := 0.98

/-- The `Input` struct: a single `u8` bitmask. -/
structure Input where
  inp : Nat
deriving DecidableEq

/-- The constant `ggrs::NULL_FRAME = -1`, the sentinel frame marking a missing input. -/
def NULL_FRAME : Int := -1

/-- The `ggrs::PlayerInput<Input>` record: the per-player input record handed to
`State::advance`, a frame tag plus the `Input` payload.  A `NULL_FRAME` tag
means the input is missing for this frame. -/
structure PlayerInput where
  frame : Int
  input : Input
deriving DecidableEq

/-- The all-zero, non-missing `PlayerInput`, used as the (never exercised)
`getD` default when indexing the input vector. -/
def noInput : PlayerInput := { frame := 0, input := { inp := 0 } }

/-- The accumulator loop of `fletcher16`:
`sum1 = (sum1 + data[index] as u16) % 255; sum2 = (sum2 + sum1) % 255`
with `u16` wrap-around made explicit as `% 65536`. -/
def fletcherLoop : List Nat → Nat → Nat → Nat × Nat
  | [], sum1, sum2 => (sum1, sum2)
  | b :: rest, sum1, sum2 =>
    let s1 := ((sum1 + b) % 65536) % 255
    fletcherLoop rest s1 (((sum2 + s1) % 65536) % 255)

/-- The combine step `fletcher16(data) = (sum2 << 8) | sum1` over the accumulator loop. -/
def fletcher16 (data : List Nat) : Nat :=
  let p := fletcherLoop data 0 0
  ((p.2 <<< 8) % 65536) ||| p.1

/-- Reference Fletcher-16 accumulator loop as the spec words it: two
mod-255 accumulators `sum1 = (sum1 + byte) mod 255; sum2 = (sum2 + sum1)
mod 255` over every byte, without any machine-width wrap. -/
def refFletcherLoop : List Nat → Nat → Nat → Nat × Nat
  | [], sum1, sum2 => (sum1, sum2)
  | b :: rest, sum1, sum2 =>
    let s1 := (sum1 + b) % 255
    refFletcherLoop rest s1 ((sum2 + s1) % 255)

/-- Reference Fletcher-16: combined as `(sum2 << 8) | sum1`. -/
def refFletcher16 (data : List Nat) : Nat :=
  let p := refFletcherLoop data 0 0
  (p.2 <<< 8) ||| p.1

/-- The key codes read by `Game::local_input`. -/
inductive KeyCode where
  | W
  | A
  | S
  | D
  | Up
  | Down
  | Left
  | Right
deriving DecidableEq

/-- The encoder `Game::local_input`: handle 0 reads WASD, handle 1 reads the arrow
keys, any other handle leaves the mask at 0.  The ambient keyboard state is
passed explicitly as `isKeyDown`. -/
def localInput (isKeyDown : KeyCode → Bool) (handle : Nat) : Nat :=
  let inp : Nat := 0
  let inp :=
    if handle = 0 then
      let inp := if isKeyDown KeyCode.W then inp ||| INPUT_UP else inp
      let inp := if isKeyDown KeyCode.A then inp ||| INPUT_LEFT else inp
      let inp := if isKeyDown KeyCode.S then inp ||| INPUT_DOWN else inp
      if isKeyDown KeyCode.D then inp ||| INPUT_RIGHT else inp
    else inp
  if handle = 1 then
    let inp := if isKeyDown KeyCode.Up then inp ||| INPUT_UP else inp
    let inp := if isKeyDown KeyCode.Left then inp ||| INPUT_LEFT else inp
    let inp := if isKeyDown KeyCode.Down then inp ||| INPUT_DOWN else inp
    if isKeyDown KeyCode.Right then inp ||| INPUT_RIGHT else inp
  else inp

/-- Effective input resolution at the top of the per-player loop of
`State::advance`: a `NULL_FRAME`-tagged input is replaced by the literal
mask `4` ("disconnected players spin"), otherwise the carried mask is
used. -/
def effInput (p : PlayerInput) : Nat :=
  if p.frame = NULL_FRAME then 4 else p.input.inp

/-- The operation `f32::rem_euclid` for a positive modulus: the least non-negative
remainder, `x - m * ⌊x / m⌋`. -/
noncomputable def remEuclid (x m : ℝ) : ℝ := x - m * ⌊x / m⌋

/-- Rounding toward zero, the rounding used by Rust's float `%`. -/
noncomputable def rtz (q : ℝ) : ℤ := if 0 ≤ q then ⌊q⌋ else -⌊-q⌋

/-- Rust's float `%` (truncated remainder): `x - m * trunc (x / m)`. -/
noncomputable def rustRem (x m : ℝ) : ℝ := x - m * rtz (x / m)

/-- The simulation `State`: frame counter, player count and per-player
kinematics. -/
structure State where
  frame : Int
  num_players : Nat
  positions : List (ℝ × ℝ)
  velocities : List (ℝ × ℝ)
  rotations : List ℝ

/-- The constructor `State::new`: players on a circle of radius `ARENA_WIDTH / 4.0` around
the arena center, at angle `i / num_players * 2.0 * PI`, facing the center
(`(rot + PI) % (2.0 * PI)`), with zero velocity and frame 0. -/
noncomputable def State.new (num_players : Nat) : State :=
  let r : ℝ := ARENA_WIDTH / 4.0
  let players := (List.range num_players).map (fun (i : ℕ) =>
    let rot : ℝ := (i : ℝ) / (num_players : ℝ) * 2.0 * Real.pi
    ((ARENA_WIDTH / 2.0 + r * Real.cos rot, ARENA_HEIGHT / 2.0 + r * Real.sin rot),
     ((0 : ℝ), (0 : ℝ)),
     rustRem (rot + Real.pi) (2.0 * Real.pi)))
  { frame := 0
    num_players := num_players
    positions := players.map (fun t => t.1)
    velocities := players.map (fun t => t.2.1)
    rotations := players.map (fun t => t.2.2) }

/-- The "slow down" step of `State::advance`: `vel * FRICTION`
componentwise. -/
noncomputable def frictionVel (v : ℝ × ℝ) : ℝ × ℝ := (v.1 * FRICTION, v.2 * FRICTION)

/-- The thrust / brake steps of `State::advance`: forward thrust iff up is
pressed and down is not, reverse thrust iff down is pressed and up is not,
along the current facing `rot`. -/
noncomputable def thrustVel (input : Nat) (v : ℝ × ℝ) (rot : ℝ) : ℝ × ℝ :=
  let v1 :=
    if input &&& INPUT_UP ≠ 0 ∧ input &&& INPUT_DOWN = 0 then
      (v.1 + MOVEMENT_SPEED * Real.cos rot, v.2 + MOVEMENT_SPEED * Real.sin rot)
    else v
  if input &&& INPUT_UP = 0 ∧ input &&& INPUT_DOWN ≠ 0 then
    (v1.1 - MOVEMENT_SPEED * Real.cos rot, v1.2 - MOVEMENT_SPEED * Real.sin rot)
  else v1

/-- The turn steps of `State::advance`: turn left iff left is pressed and
right is not, turn right iff right is pressed and left is not, each step
wrapped by `rem_euclid (2.0 * PI)`. -/
noncomputable def turnRot (input : Nat) (rot : ℝ) : ℝ :=
  let r1 :=
    if input &&& INPUT_LEFT ≠ 0 ∧ input &&& INPUT_RIGHT = 0 then
      remEuclid (rot - ROTATION_SPEED) (2.0 * Real.pi)
    else rot
  if input &&& INPUT_LEFT = 0 ∧ input &&& INPUT_RIGHT ≠ 0 then
    remEuclid (r1 + ROTATION_SPEED) (2.0 * Real.pi)
  else r1

/-- The "limit speed" step of `State::advance`: rescale the velocity to
magnitude `MAX_SPEED` when its magnitude exceeds `MAX_SPEED`. -/
noncomputable def limitVel (v : ℝ × ℝ) : ℝ × ℝ :=
  let magnitude := Real.sqrt (v.1 * v.1 + v.2 * v.2)
  if magnitude > MAX_SPEED then (v.1 * MAX_SPEED / magnitude, v.2 * MAX_SPEED / magnitude)
  else v

/-- The border constraint of `State::advance`:
`x.max(0.0).min(limit)`. -/
noncomputable def clampPos (p limit : ℝ) : ℝ := min (max p 0) limit

/-- One iteration of the per-player loop of `State::advance`, given the
already-resolved effective input mask: friction, thrust, turn, speed
limit, position integration and border clamp.  Returns
`(new position, new velocity, new rotation)`. -/
noncomputable def advancePlayer (input : Nat) (pos vel : ℝ × ℝ) (rot : ℝ) :
    (ℝ × ℝ) × (ℝ × ℝ) × ℝ :=
  let vel1 := thrustVel input (frictionVel vel) rot
  let rot1 := turnRot input rot
  let vel2 := limitVel vel1
  ((clampPos (pos.1 + vel2.1) ARENA_WIDTH, clampPos (pos.2 + vel2.2) ARENA_HEIGHT),
   vel2, rot1)

/-- The step function `State::advance`: increment the frame counter, then run the per-player
loop for `i` in `0..num_players`.  List indexing `inputs[i]` is modelled
with `getD`; all theorems below only exercise indices within bounds. -/
noncomputable def advance (s : State) (inputs : List PlayerInput) : State :=
  let upd := (List.range s.num_players).map (fun i =>
    advancePlayer (effInput (inputs.getD i noInput))
      (s.positions.getD i (0, 0)) (s.velocities.getD i (0, 0)) (s.rotations.getD i 0))
  { frame := s.frame + 1
    num_players := s.num_players
    positions := upd.map (fun t => t.1)
    velocities := upd.map (fun t => t.2.1)
    rotations := upd.map (fun t => t.2.2) }

/-- The `ggrs::GameState<State>` record as stored in a `GameStateCell`: a frame tag,
an optional `State` payload and a checksum. -/
structure GameState where
  frame : Int
  data : Option State
  checksum : Nat

/-- The `Game` struct (dispatcher state): player count, current simulation
state and the two checksum records.  The rendering-only connection-status
list is not modelled. -/
structure Game where
  num_players : Nat
  game_state : State
  last_checksum : Int × Nat
  periodic_checksum : Int × Nat

/-- The handler `Game::save_game_state`: `assert_eq!(self.game_state.frame, frame)`
(modelled as `none` on violation, the panic), then store the state
together with the Fletcher-16 checksum of its serialization into the cell,
keyed by `frame`.  `ser` stands for `bincode::serialize`. -/
def saveGameState (ser : State → List Nat) (g : Game) (cell : GameState) (frame : Int) :
    Option GameState :=
  if g.game_state.frame = frame then
    some { frame := frame, data := some g.game_state, checksum := fletcher16 (ser g.game_state) }
  else none

/-- The handler `Game::load_game_state`: `cell.load().data.expect("No data found.")`
(modelled as `none` when the cell holds no data, the panic), replacing the
current simulation state wholesale. -/
def loadGameState (g : Game) (cell : GameState) : Option Game :=
  match cell.data with
  | some s => some { g with game_state := s }
  | none => none

/-- The handler `Game::advance_frame`: advance the simulation, serialize it, compute
the Fletcher-16 checksum, record `(frame, checksum)` as `last_checksum`,
and as `periodic_checksum` when `frame % CHECKSUM_PERIOD == 0` (Rust `%`
on `i32` is the truncated remainder `Int.tmod`). -/
noncomputable def advanceFrame (ser : State → List Nat) (g : Game)
    (inputs : List PlayerInput) : Game :=
  let st := advance g.game_state inputs
  let checksum := fletcher16 (ser st)
  { g with
    game_state := st
    last_checksum := (st.frame, checksum)
    periodic_checksum :=
      if Int.tmod st.frame CHECKSUM_PERIOD = 0 then (st.frame, checksum)
      else g.periodic_checksum }

/-- A run of the simulation: start from `State::new n` and fold `advance`
over a sequence of per-frame input vectors. -/
noncomputable def run (n : Nat) (seq : List (List PlayerInput)) : State :=
  seq.foldl advance (State.new n)

/-- The documented state invariant: per-player array lengths equal
`num_players`, positions inside the arena rectangle, velocity magnitude at
most `MAX_SPEED`, rotations in `[0, 2π)`. -/
def stateInvariant (s : State) : Prop :=
  s.positions.length = s.num_players ∧
  s.velocities.length = s.num_players ∧
  s.rotations.length = s.num_players ∧
  (∀ p ∈ s.positions, 0 ≤ p.1 ∧ p.1 ≤ ARENA_WIDTH ∧ 0 ≤ p.2 ∧ p.2 ≤ ARENA_HEIGHT) ∧
  (∀ v ∈ s.velocities, Real.sqrt (v.1 * v.1 + v.2 * v.2) ≤ MAX_SPEED) ∧
  (∀ r ∈ s.rotations, 0 ≤ r ∧ r < 2.0 * Real.pi)

/-- The velocity of player `i` as computed by the friction / thrust /
speed-limit pipeline of `State::advance`, before any position clamping. -/
noncomputable def velAfter (s : State) (inputs : List PlayerInput) (i : Nat) : ℝ × ℝ :=
  limitVel (thrustVel (effInput (inputs.getD i noInput))
    (frictionVel (s.velocities.getD i (0, 0))) (s.rotations.getD i 0))

/-- A minimal one-player state used as a concrete evaluation point:
frame 0, position at the origin corner, zero velocity, rotation 0. -/
noncomputable def testState : State :=
  { frame := 0, num_players := 1, positions := [(0, 0)], velocities := [(0, 0)],
    rotations := [0] }

/-- A one-player state resting against the right wall with rightward
velocity, used to exercise the position clamp. -/
noncomputable def wallState : State :=
  { frame := 0, num_players := 1, positions := [(800, 0)], velocities := [(5, 0)],
    rotations := [0] }

/-- A dispatcher state wrapping `testState`. -/
noncomputable def testGame : Game :=
  { num_players := 1, game_state := testState, last_checksum := (NULL_FRAME, 0),
    periodic_checksum := (NULL_FRAME, 0) }

/-- A storage cell holding no saved data. -/
def emptyCell : GameState := { frame := NULL_FRAME, data := none, checksum := 0 }

/-- A storage cell holding `testState`. -/
noncomputable def fullCell : GameState := { frame := 0, data := some testState, checksum := 0 }

/-- A trivial serialization function (the dispatcher theorems hold for
every serialization). -/
def serNil : State → List Nat := fun _ => []

/-- An input for the current frame whose mask is `NULL_FRAME`-tagged:
the "missing input" sentinel. -/
def missingInput : PlayerInput := { frame := NULL_FRAME, input := { inp := 0 } }

/-- A present input carrying only the turn-left bit. -/
def leftInput : PlayerInput := { frame := 0, input := { inp := INPUT_LEFT } }

/-- A present input carrying only the turn-right bit. -/
def rightInput : PlayerInput := { frame := 0, input := { inp := INPUT_RIGHT } }

/-- A present input with all four direction bits held. -/
def allDirInput : PlayerInput := { frame := 0, input := { inp := 15 } }

/-! ### Helper lemmas about the embedded operations -/

lemma advancePlayer_velocity (input : Nat) (pos vel : ℝ × ℝ) (rot : ℝ) :
    (advancePlayer input pos vel rot).2.1 = limitVel (thrustVel input (frictionVel vel) rot) :=
  rfl

lemma advancePlayer_rotation (input : Nat) (pos vel : ℝ × ℝ) (rot : ℝ) :
    (advancePlayer input pos vel rot).2.2 = turnRot input rot :=
  rfl

lemma advancePlayer_position (input : Nat) (pos vel : ℝ × ℝ) (rot : ℝ) :
    (advancePlayer input pos vel rot).1 =
      (clampPos (pos.1 + (limitVel (thrustVel input (frictionVel vel) rot)).1) ARENA_WIDTH,
       clampPos (pos.2 + (limitVel (thrustVel input (frictionVel vel) rot)).2) ARENA_HEIGHT) :=
  rfl

lemma advance_positions_length (s : State) (inputs : List PlayerInput) :
    (advance s inputs).positions.length = s.num_players := by
  simp [advance]

lemma advance_velocities_length (s : State) (inputs : List PlayerInput) :
    (advance s inputs).velocities.length = s.num_players := by
  simp [advance]

lemma advance_rotations_length (s : State) (inputs : List PlayerInput) :
    (advance s inputs).rotations.length = s.num_players := by
  simp [advance]

lemma advance_positions_getD (s : State) (inputs : List PlayerInput) (i : Nat)
    (hi : i < s.num_players) :
    (advance s inputs).positions.getD i (0, 0) =
      (advancePlayer (effInput (inputs.getD i noInput)) (s.positions.getD i (0, 0))
        (s.velocities.getD i (0, 0)) (s.rotations.getD i 0)).1 := by
  rw [List.getD_eq_getElem _ _ (by simpa [advance_positions_length] using hi)]
  simp [advance]

lemma advance_velocities_getD (s : State) (inputs : List PlayerInput) (i : Nat)
    (hi : i < s.num_players) :
    (advance s inputs).velocities.getD i (0, 0) =
      (advancePlayer (effInput (inputs.getD i noInput)) (s.positions.getD i (0, 0))
        (s.velocities.getD i (0, 0)) (s.rotations.getD i 0)).2.1 := by
  rw [List.getD_eq_getElem _ _ (by simpa [advance_velocities_length] using hi)]
  simp [advance]

lemma advance_rotations_getD (s : State) (inputs : List PlayerInput) (i : Nat)
    (hi : i < s.num_players) :
    (advance s inputs).rotations.getD i 0 =
      (advancePlayer (effInput (inputs.getD i noInput)) (s.positions.getD i (0, 0))
        (s.velocities.getD i (0, 0)) (s.rotations.getD i 0)).2.2 := by
  rw [List.getD_eq_getElem _ _ (by simpa [advance_rotations_length] using hi)]
  simp [advance]

lemma remEuclid_eq_fract_mul (x m : ℝ) (hm : m ≠ 0) :
    remEuclid x m = m * Int.fract (x / m) := by
  unfold remEuclid Int.fract
  rw [mul_sub, mul_div_cancel₀ x hm]

lemma remEuclid_nonneg (x m : ℝ) (hm : 0 < m) : 0 ≤ remEuclid x m := by
  rw [remEuclid_eq_fract_mul x m hm.ne']
  exact mul_nonneg hm.le (Int.fract_nonneg _)

lemma remEuclid_lt (x m : ℝ) (hm : 0 < m) : remEuclid x m < m := by
  rw [remEuclid_eq_fract_mul x m hm.ne']
  calc m * Int.fract (x / m) < m * 1 := by
        exact mul_lt_mul_of_pos_left (Int.fract_lt_one _) hm
  _ = m := mul_one m

lemma remEuclid_of_mem_Ico (x m : ℝ) (hm : 0 < m) (h0 : 0 ≤ x) (h1 : x < m) :
    remEuclid x m = x := by
  unfold remEuclid
  have hfl : ⌊x / m⌋ = 0 :=
    Int.floor_eq_zero_iff.mpr ⟨div_nonneg h0 hm.le, (div_lt_one hm).mpr h1⟩
  rw [hfl]
  simp

lemma remEuclid_of_neg (x m : ℝ) (hm : 0 < m) (h0 : -m ≤ x) (h1 : x < 0) :
    remEuclid x m = x + m := by
  unfold remEuclid
  have hfl : ⌊x / m⌋ = -1 := by
    rw [Int.floor_eq_iff]
    constructor
    · push_cast
      rw [le_div_iff hm]
      linarith
    · push_cast
      have : x / m < 0 := div_neg_of_neg_of_pos h1 hm
      linarith
  rw [hfl]
  push_cast
  ring

lemma rustRem_of_mem_Ico (x m : ℝ) (hm : 0 < m) (h0 : 0 ≤ x) (h1 : x < m) :
    rustRem x m = x := by
  unfold rustRem rtz
  have hq : 0 ≤ x / m := div_nonneg h0 hm.le
  rw [if_pos hq]
  have hfl : ⌊x / m⌋ = 0 :=
    Int.floor_eq_zero_iff.mpr ⟨hq, (div_lt_one hm).mpr h1⟩
  rw [hfl]
  simp

lemma rustRem_self (m : ℝ) (hm : 0 < m) : rustRem m m = 0 := by
  unfold rustRem rtz
  rw [div_self hm.ne']
  norm_num

lemma limitVel_of_le (v : ℝ × ℝ) (h : Real.sqrt (v.1 * v.1 + v.2 * v.2) ≤ MAX_SPEED) :
    limitVel v = v := by
  unfold limitVel
  rw [if_neg (not_lt.mpr h)]

lemma limitVel_magnitude_le (v : ℝ × ℝ) :
    Real.sqrt ((limitVel v).1 * (limitVel v).1 + (limitVel v).2 * (limitVel v).2) ≤
      MAX_SPEED := by
  unfold limitVel
  by_cases h : Real.sqrt (v.1 * v.1 + v.2 * v.2) > MAX_SPEED
  · rw [if_pos h]
    simp only
    have hM : (0 : ℝ) < MAX_SPEED := by norm_num [MAX_SPEED]
    have hm0 : 0 < Real.sqrt (v.1 * v.1 + v.2 * v.2) := lt_trans hM h
    have hsq : Real.sqrt (v.1 * v.1 + v.2 * v.2) ^ 2 = v.1 * v.1 + v.2 * v.2 :=
      Real.sq_sqrt (add_nonneg (mul_self_nonneg v.1) (mul_self_nonneg v.2))
    have hsum : (v.1 * MAX_SPEED / Real.sqrt (v.1 * v.1 + v.2 * v.2)) *
          (v.1 * MAX_SPEED / Real.sqrt (v.1 * v.1 + v.2 * v.2)) +
        (v.2 * MAX_SPEED / Real.sqrt (v.1 * v.1 + v.2 * v.2)) *
          (v.2 * MAX_SPEED / Real.sqrt (v.1 * v.1 + v.2 * v.2)) =
        MAX_SPEED * MAX_SPEED := by
      field_simp
      linear_combination (-(MAX_SPEED ^ 2)) * hsq
    rw [hsum, show MAX_SPEED * MAX_SPEED = MAX_SPEED ^ 2 by ring,
      Real.sqrt_sq hM.le]
  · rw [if_neg h]
    exact not_lt.mp h

lemma clampPos_mem (p limit : ℝ) (h : 0 ≤ limit) :
    0 ≤ clampPos p limit ∧ clampPos p limit ≤ limit := by
  unfold clampPos
  exact ⟨le_min (le_max_right p 0) h, min_le_right _ _⟩

lemma clampPos_of_mem (p limit : ℝ) (h0 : 0 ≤ p) (h1 : p ≤ limit) :
    clampPos p limit = p := by
  unfold clampPos
  rw [max_eq_left h0, min_eq_left h1]

lemma clampPos_of_gt (p limit : ℝ) (h0 : 0 ≤ limit) (h1 : limit < p) :
    clampPos p limit = limit := by
  unfold clampPos
  rw [max_eq_left (le_trans h0 h1.le), min_eq_right h1.le]

lemma turnRot_mem (input : Nat) (rot : ℝ) (h0 : 0 ≤ rot) (h1 : rot < 2.0 * Real.pi) :
    0 ≤ turnRot input rot ∧ turnRot input rot < 2.0 * Real.pi := by
  have hm : (0 : ℝ) < 2.0 * Real.pi := by
    have := Real.pi_pos
    linarith
  unfold turnRot
  by_cases hL : input &&& INPUT_LEFT ≠ 0 ∧ input &&& INPUT_RIGHT = 0 <;>
    by_cases hR : input &&& INPUT_LEFT = 0 ∧ input &&& INPUT_RIGHT ≠ 0
  · rw [if_pos hL, if_pos hR]
    exact ⟨remEuclid_nonneg _ _ hm, remEuclid_lt _ _ hm⟩
  · rw [if_pos hL, if_neg hR]
    exact ⟨remEuclid_nonneg _ _ hm, remEuclid_lt _ _ hm⟩
  · rw [if_neg hL, if_pos hR]
    exact ⟨remEuclid_nonneg _ _ hm, remEuclid_lt _ _ hm⟩
  · rw [if_neg hL, if_neg hR]
    exact ⟨h0, h1⟩

lemma refFletcherLoop_lt (data : List Nat) :
    ∀ s1 s2, s1 < 255 → s2 < 255 →
      (refFletcherLoop data s1 s2).1 < 255 ∧ (refFletcherLoop data s1 s2).2 < 255 := by
  induction data with
  | nil => exact fun s1 s2 h1 h2 => ⟨h1, h2⟩
  | cons b rest ih =>
    intro s1 s2 h1 h2
    exact ih _ _ (Nat.mod_lt _ (by norm_num)) (Nat.mod_lt _ (by norm_num))

lemma fletcherLoop_eq_ref (data : List Nat) :
    ∀ s1 s2, s1 < 255 → s2 < 255 → (∀ b ∈ data, b < 256) →
      fletcherLoop data s1 s2 = refFletcherLoop data s1 s2 := by
  induction data with
  | nil => intros; rfl
  | cons b rest ih =>
    intro s1 s2 h1 h2 hb
    have hb0 : b < 256 := hb b (List.mem_cons_self _ _)
    have e1 : (s1 + b) % 65536 = s1 + b := Nat.mod_eq_of_lt (by omega)
    have hmod : (s1 + b) % 255 < 255 := Nat.mod_lt _ (by norm_num)
    have e2 : (s2 + (s1 + b) % 255) % 65536 = s2 + (s1 + b) % 255 :=
      Nat.mod_eq_of_lt (by omega)
    show fletcherLoop rest _ _ = refFletcherLoop rest _ _
    rw [e1, e2]
    exact ih _ _ (Nat.mod_lt _ (by norm_num)) (Nat.mod_lt _ (by norm_num))
      (fun x hx => hb x (List.mem_cons_of_mem _ hx))

/-! ### Claim theorems -/

/-- C1: determinism of `advance` — two runs that start from `State::new n`
and apply the identical input sequence produce identical states at every
frame prefix, hence identical serializations and equal checksums, and
`advance` applied twice to the same `(priorState, inputs)` pair yields
identical results. -/
theorem c1_advance_deterministic (n : Nat) (seq1 seq2 : List (List PlayerInput))
    (ser : State → List Nat) (k : Nat) (h : seq1 = seq2) :
    run n (seq1.take k) = run n (seq2.take k) ∧
    ser (run n (seq1.take k)) = ser (run n (seq2.take k)) ∧
    fletcher16 (ser (run n (seq1.take k))) = fletcher16 (ser (run n (seq2.take k))) ∧
    advance (run n (seq1.take k)) (seq1.getD k []) =
      advance (run n (seq2.take k)) (seq2.getD k []) := by
  subst h
  exact ⟨rfl, rfl, rfl, rfl⟩

/-- Witness for C1 at a concrete player count and input sequence. -/
theorem c1_advance_deterministic_witness :
    ([[noInput]] : List (List PlayerInput)) = [[noInput]] ∧
    run 1 (([[noInput]] : List (List PlayerInput)).take 1) =
      run 1 (([[noInput]] : List (List PlayerInput)).take 1) :=
  ⟨rfl, (c1_advance_deterministic 1 [[noInput]] [[noInput]] serNil 1 rfl).1⟩

/-- C4: save/load round-trip — saving at the current frame and then
loading from the produced cell restores a simulation state identical to
the one before the save (hence an identical serialization). -/
theorem c4_save_load_roundtrip (ser : State → List Nat) (g : Game) (cell : GameState) :
    ∃ cell2, saveGameState ser g cell g.game_state.frame = some cell2 ∧
      ∃ g2, loadGameState g cell2 = some g2 ∧ g2.game_state = g.game_state ∧
        ser g2.game_state = ser g.game_state := by
  refine ⟨{ frame := g.game_state.frame, data := some g.game_state,
            checksum := fletcher16 (ser g.game_state) }, ?_,
          { g with game_state := g.game_state }, rfl, rfl, rfl⟩
  unfold saveGameState
  rw [if_pos rfl]

/-- C5: dispatcher error contract — a Save request fails (panics) iff the
requested frame differs from the current simulation frame; a Load request
fails iff the cell holds no data; on success Save stores the serialized
state with its checksum keyed by the frame, and Load replaces the current
state wholesale. -/
theorem c5_dispatcher_error_contract (ser : State → List Nat) (g : Game)
    (cell : GameState) (frame : Int) :
    (saveGameState ser g cell frame = none ↔ frame ≠ g.game_state.frame) ∧
    (loadGameState g cell = none ↔ cell.data = none) ∧
    (frame = g.game_state.frame →
      saveGameState ser g cell frame =
        some { frame := frame, data := some g.game_state,
               checksum := fletcher16 (ser g.game_state) }) ∧
    (∀ st, cell.data = some st → loadGameState g cell = some { g with game_state := st }) := by
  refine ⟨?_, ?_, ?_, ?_⟩
  · by_cases h : g.game_state.frame = frame
    · simp [saveGameState, h, eq_comm]
    · simp only [saveGameState, if_neg h]
      simp [eq_comm, Ne, h]
      exact fun hc => h hc.symm
  · cases hd : cell.data <;> simp [loadGameState, hd]
  · intro h
    subst h
    simp [saveGameState]
  · intro st hd
    simp [loadGameState, hd]

/-- Witness for C5 at a concrete game state and cells. -/
theorem c5_dispatcher_error_contract_witness :
    (0 : Int) = testGame.game_state.frame ∧
    saveGameState serNil testGame emptyCell 0 =
      some { frame := 0, data := some testGame.game_state,
             checksum := fletcher16 (serNil testGame.game_state) } ∧
    fullCell.data = some testState ∧
    loadGameState testGame fullCell = some { testGame with game_state := testState } :=
  ⟨rfl, (c5_dispatcher_error_contract serNil testGame emptyCell 0).2.2.1 rfl, rfl,
    (c5_dispatcher_error_contract serNil testGame fullCell 0).2.2.2 testState rfl⟩

/-- C6: the checksum function agrees with the reference Fletcher-16
definition on every byte sequence, and after every Advance request the
`(frame, checksum)` pair of the new state is recorded as `last_checksum`,
and as `periodic_checksum` exactly when the new frame is divisible by
100. -/
theorem c6_checksum_and_recording :
    (∀ data : List Nat, (∀ b ∈ data, b < 256) → fletcher16 data = refFletcher16 data) ∧
    (∀ (ser : State → List Nat) (g : Game) (inputs : List PlayerInput),
      (advanceFrame ser g inputs).game_state = advance g.game_state inputs ∧
      (advanceFrame ser g inputs).last_checksum =
        ((advance g.game_state inputs).frame,
          fletcher16 (ser (advance g.game_state inputs))) ∧
      ((100 : Int) ∣ (advance g.game_state inputs).frame →
        (advanceFrame ser g inputs).periodic_checksum =
          ((advance g.game_state inputs).frame,
            fletcher16 (ser (advance g.game_state inputs)))) ∧
      (¬ (100 : Int) ∣ (advance g.game_state inputs).frame →
        (advanceFrame ser g inputs).periodic_checksum = g.periodic_checksum)) := by
  constructor
  · intro data hb
    unfold fletcher16 refFletcher16
    rw [fletcherLoop_eq_ref data 0 0 (by norm_num) (by norm_num) hb]
    have h2 := (refFletcherLoop_lt data 0 0 (by norm_num) (by norm_num)).2
    simp only [Nat.shiftLeft_eq, show (2 : ℕ) ^ 8 = 256 from by norm_num]
    congr 1
    exact Nat.mod_eq_of_lt (by omega)
  · intro ser g inputs
    refine ⟨rfl, rfl, ?_, ?_⟩
    · intro hd
      show (if Int.tmod (advance g.game_state inputs).frame CHECKSUM_PERIOD = 0
        then _ else _) = _
      rw [if_pos]
      exact Int.tmod_eq_zero_of_dvd hd
    · intro hd
      show (if Int.tmod (advance g.game_state inputs).frame CHECKSUM_PERIOD = 0
        then _ else _) = _
      rw [if_neg]
      intro h0
      exact hd (Int.dvd_of_tmod_eq_zero h0)

/-- Witness for C6 at a concrete byte list and a concrete non-periodic
frame. -/
theorem c6_checksum_and_recording_witness :
    (∀ b ∈ [3, 250, 77], b < 256) ∧
    fletcher16 [3, 250, 77] = refFletcher16 [3, 250, 77] ∧
    ¬ (100 : Int) ∣ (advance testGame.game_state []).frame ∧
    (advanceFrame serNil testGame []).periodic_checksum = testGame.periodic_checksum := by
  have hnd : ¬ (100 : Int) ∣ (advance testGame.game_state []).frame := by
    rw [show (advance testGame.game_state []).frame = 1 from rfl]
    omega
  exact ⟨by decide, c6_checksum_and_recording.1 [3, 250, 77] (by decide), hnd,
    (c6_checksum_and_recording.2 serNil testGame []).2.2.2 hnd⟩

/-- C10: the local input encoder only ever sets the four defined direction
bits (its value is below 16), and for every handle other than 0 and 1 it
returns the all-zero mask regardless of the held keys. -/
theorem c10_local_input_bits (isKeyDown : KeyCode → Bool) (handle : Nat) :
    localInput isKeyDown handle < 16 ∧
    (2 ≤ handle → localInput isKeyDown handle = 0) := by
  match handle with
  | 0 =>
    refine ⟨?_, by omega⟩
    cases hW : isKeyDown KeyCode.W <;> cases hA : isKeyDown KeyCode.A <;>
      cases hS : isKeyDown KeyCode.S <;> cases hD : isKeyDown KeyCode.D <;>
      simp [localInput, hW, hA, hS, hD, INPUT_UP, INPUT_DOWN, INPUT_LEFT, INPUT_RIGHT]
  | 1 =>
    refine ⟨?_, by omega⟩
    cases hU : isKeyDown KeyCode.Up <;> cases hL : isKeyDown KeyCode.Left <;>
      cases hD : isKeyDown KeyCode.Down <;> cases hR : isKeyDown KeyCode.Right <;>
      simp [localInput, hU, hL, hD, hR, INPUT_UP, INPUT_DOWN, INPUT_LEFT, INPUT_RIGHT]
  | (n + 2) =>
    have h0 : localInput isKeyDown (n + 2) = 0 := by
      simp [localInput]
    rw [h0]
    exact ⟨by norm_num, fun _ => rfl⟩

/-- Witness for C10 at handle 2 with every key held. -/
theorem c10_local_input_bits_witness :
    2 ≤ 2 ∧ localInput (fun _ => true) 2 = 0 ∧ localInput (fun _ => true) 2 < 16 :=
  ⟨by norm_num, (c10_local_input_bits (fun _ => true) 2).2 (by norm_num),
    (c10_local_input_bits (fun _ => true) 2).1⟩

/-- C3: `advance` preserves the state invariant — with input vectors of
the right length, the per-player arrays keep length `num_players`, every
position stays inside `[0, ARENA_WIDTH] × [0, ARENA_HEIGHT]`, every
velocity keeps magnitude at most `MAX_SPEED`, and every rotation stays in
`[0, 2π)`. -/
theorem c3_invariant_preserved (s : State) (inputs : List PlayerInput)
    (hs : stateInvariant s) (hlen : inputs.length = s.num_players) :
    stateInvariant (advance s inputs) := by
  obtain ⟨hp, hv, hr, hpos, hvel, hrot⟩ := hs
  have hW : (0 : ℝ) ≤ ARENA_WIDTH := by norm_num [ARENA_WIDTH]
  have hH : (0 : ℝ) ≤ ARENA_HEIGHT := by norm_num [ARENA_HEIGHT]
  refine ⟨advance_positions_length s inputs, advance_velocities_length s inputs,
    advance_rotations_length s inputs, ?_, ?_, ?_⟩
  · intro p hmem
    simp only [advance, List.mem_map, List.mem_range] at hmem
    obtain ⟨t, ⟨i, hi, rfl⟩, rfl⟩ := hmem
    rw [advancePlayer_position]
    exact ⟨(clampPos_mem _ _ hW).1, (clampPos_mem _ _ hW).2,
      (clampPos_mem _ _ hH).1, (clampPos_mem _ _ hH).2⟩
  · intro v hmem
    simp only [advance, List.mem_map, List.mem_range] at hmem
    obtain ⟨t, ⟨i, hi, rfl⟩, rfl⟩ := hmem
    rw [advancePlayer_velocity]
    exact limitVel_magnitude_le _
  · intro r hmem
    simp only [advance, List.mem_map, List.mem_range] at hmem
    obtain ⟨t, ⟨i, hi, rfl⟩, rfl⟩ := hmem
    rw [advancePlayer_rotation]
    have hilen : i < s.rotations.length := by rw [hr]; exact hi
    have hmemr : s.rotations.getD i 0 ∈ s.rotations := by
      rw [List.getD_eq_getElem _ _ hilen]
      exact List.getElem_mem _
    have hb := hrot _ hmemr
    exact turnRot_mem _ _ hb.1 hb.2

/-- Witness for C3 at a concrete state satisfying the invariant. -/
theorem c3_invariant_preserved_witness :
    stateInvariant testState ∧
    ([noInput] : List PlayerInput).length = testState.num_players ∧
    stateInvariant (advance testState [noInput]) := by
  have hinv : stateInvariant testState := by
    refine ⟨rfl, rfl, rfl, ?_, ?_, ?_⟩
    · intro p hp
      simp only [testState, List.mem_singleton] at hp
      subst hp
      norm_num [ARENA_WIDTH, ARENA_HEIGHT]
    · intro v hv
      simp only [testState, List.mem_singleton] at hv
      subst hv
      show Real.sqrt ((0 : ℝ) * 0 + 0 * 0) ≤ MAX_SPEED
      rw [show ((0 : ℝ) * 0 + 0 * 0) = 0 by norm_num, Real.sqrt_zero]
      norm_num [MAX_SPEED]
    · intro r hr
      simp only [testState, List.mem_singleton] at hr
      subst hr
      refine ⟨le_refl 0, ?_⟩
      have := Real.pi_pos
      linarith
  exact ⟨hinv, rfl, c3_invariant_preserved testState [noInput] hinv rfl⟩

/-- C7: input cancellation — when the effective input holds both up and
down, no thrust term is added, so the stored velocity is the old velocity
scaled by `FRICTION` (then speed-clamped); when it holds both left and
right, the stored rotation is unchanged. -/
theorem c7_input_cancellation (s : State) (inputs : List PlayerInput) (i : Nat)
    (hi : i < s.num_players) :
    (effInput (inputs.getD i noInput) &&& INPUT_UP ≠ 0 →
      effInput (inputs.getD i noInput) &&& INPUT_DOWN ≠ 0 →
      (advance s inputs).velocities.getD i (0, 0) =
        limitVel (frictionVel (s.velocities.getD i (0, 0)))) ∧
    (effInput (inputs.getD i noInput) &&& INPUT_LEFT ≠ 0 →
      effInput (inputs.getD i noInput) &&& INPUT_RIGHT ≠ 0 →
      (advance s inputs).rotations.getD i 0 = s.rotations.getD i 0) := by
  constructor
  · intro hu hd
    rw [advance_velocities_getD s inputs i hi, advancePlayer_velocity]
    have h1 : ¬ (effInput (inputs.getD i noInput) &&& INPUT_UP ≠ 0 ∧
        effInput (inputs.getD i noInput) &&& INPUT_DOWN = 0) := fun hc => hd hc.2
    have h2 : ¬ (effInput (inputs.getD i noInput) &&& INPUT_UP = 0 ∧
        effInput (inputs.getD i noInput) &&& INPUT_DOWN ≠ 0) := fun hc => hu hc.1
    simp only [thrustVel]
    rw [if_neg h1, if_neg h2]
  · intro hl hr
    rw [advance_rotations_getD s inputs i hi, advancePlayer_rotation]
    have h1 : ¬ (effInput (inputs.getD i noInput) &&& INPUT_LEFT ≠ 0 ∧
        effInput (inputs.getD i noInput) &&& INPUT_RIGHT = 0) := fun hc => hr hc.2
    have h2 : ¬ (effInput (inputs.getD i noInput) &&& INPUT_LEFT = 0 ∧
        effInput (inputs.getD i noInput) &&& INPUT_RIGHT ≠ 0) := fun hc => hl hc.1
    simp only [turnRot]
    rw [if_neg h1, if_neg h2]

/-- Witness for C7 with all four direction bits held. -/
theorem c7_input_cancellation_witness :
    effInput (([allDirInput] : List PlayerInput).getD 0 noInput) &&& INPUT_UP ≠ 0 ∧
    effInput (([allDirInput] : List PlayerInput).getD 0 noInput) &&& INPUT_DOWN ≠ 0 ∧
    effInput (([allDirInput] : List PlayerInput).getD 0 noInput) &&& INPUT_LEFT ≠ 0 ∧
    effInput (([allDirInput] : List PlayerInput).getD 0 noInput) &&& INPUT_RIGHT ≠ 0 ∧
    (advance testState [allDirInput]).velocities.getD 0 (0, 0) =
      limitVel (frictionVel (testState.velocities.getD 0 (0, 0))) ∧
    (advance testState [allDirInput]).rotations.getD 0 0 = testState.rotations.getD 0 0 := by
  refine ⟨by decide, by decide, by decide, by decide, ?_, ?_⟩
  · exact (c7_input_cancellation testState [allDirInput] 0 (by decide)).1
      (by decide) (by decide)
  · exact (c7_input_cancellation testState [allDirInput] 0 (by decide)).2
      (by decide) (by decide)

/-- C8: the wall clamp modifies only the stored position — the stored
velocity always equals the friction/thrust/speed-clamp pipeline value
`velAfter`, and a player whose unclamped x-position would exceed the right
wall is stored at `ARENA_WIDTH` while keeping that full velocity
component. -/
theorem c8_clamp_position_only (s : State) (inputs : List PlayerInput) (i : Nat)
    (hi : i < s.num_players) :
    (advance s inputs).velocities.getD i (0, 0) = velAfter s inputs i ∧
    (ARENA_WIDTH < (s.positions.getD i (0, 0)).1 + (velAfter s inputs i).1 →
      ((advance s inputs).positions.getD i (0, 0)).1 = ARENA_WIDTH ∧
      ((advance s inputs).velocities.getD i (0, 0)).1 = (velAfter s inputs i).1) := by
  have hv : (advance s inputs).velocities.getD i (0, 0) = velAfter s inputs i := by
    rw [advance_velocities_getD s inputs i hi, advancePlayer_velocity]
    rfl
  refine ⟨hv, fun hover => ⟨?_, by rw [hv]⟩⟩
  rw [advance_positions_getD s inputs i hi, advancePlayer_position]
  exact clampPos_of_gt _ _ (by norm_num [ARENA_WIDTH]) hover

/-- Witness for C8: a player resting on the right wall with rightward
velocity keeps its full velocity while the position is clamped. -/
theorem c8_clamp_position_only_witness :
    ARENA_WIDTH < (wallState.positions.getD 0 (0, 0)).1 + (velAfter wallState [noInput] 0).1 ∧
    ((advance wallState [noInput]).positions.getD 0 (0, 0)).1 = ARENA_WIDTH ∧
    ((advance wallState [noInput]).velocities.getD 0 (0, 0)).1 =
      (velAfter wallState [noInput] 0).1 := by
  have hvel : velAfter wallState [noInput] 0 = ((4.9 : ℝ), (0 : ℝ)) := by
    have h1 : effInput (([noInput] : List PlayerInput).getD 0 noInput) = 0 := rfl
    have h2 : wallState.velocities.getD 0 (0, 0) = ((5 : ℝ), (0 : ℝ)) := rfl
    have h3 : wallState.rotations.getD 0 0 = (0 : ℝ) := rfl
    unfold velAfter
    rw [h1, h2, h3]
    have h4 : frictionVel ((5 : ℝ), (0 : ℝ)) = ((4.9 : ℝ), (0 : ℝ)) := by
      simp only [frictionVel, FRICTION]
      norm_num
    have h5 : thrustVel 0 ((4.9 : ℝ), (0 : ℝ)) 0 = ((4.9 : ℝ), (0 : ℝ)) := by
      simp [thrustVel, INPUT_UP, INPUT_DOWN]
    rw [h4, h5]
    apply limitVel_of_le
    show Real.sqrt ((4.9 : ℝ) * 4.9 + 0 * 0) ≤ MAX_SPEED
    rw [show ((4.9 : ℝ) * 4.9 + 0 * 0) = 4.9 ^ 2 by norm_num,
      Real.sqrt_sq (by norm_num : (0 : ℝ) ≤ 4.9)]
    norm_num [MAX_SPEED]
  have hover : ARENA_WIDTH <
      (wallState.positions.getD 0 (0, 0)).1 + (velAfter wallState [noInput] 0).1 := by
    rw [hvel, show (wallState.positions.getD 0 (0, 0)).1 = (800 : ℝ) from rfl]
    norm_num [ARENA_WIDTH]
  exact ⟨hover, ((c8_clamp_position_only wallState [noInput] 0 (by decide)).2 hover).1,
    ((c8_clamp_position_only wallState [noInput] 0 (by decide)).2 hover).2⟩

/-- C2 (counterexample to the claim as stated): a missing input does NOT
behave like a turn-right-only input, and the rotation does not change by
`+ROTATION_SPEED`: at rotation 0, the missing-input substitution yields
rotation `2π - ROTATION_SPEED`, not `ROTATION_SPEED`. -/
theorem c2_counterexample :
    (advance testState [missingInput]).rotations ≠
      (advance testState [rightInput]).rotations ∧
    (advance testState [missingInput]).rotations.getD 0 0 ≠
      remEuclid (testState.rotations.getD 0 0 + ROTATION_SPEED) (2.0 * Real.pi) := by
  have hpi := Real.pi_gt_three
  have hrs0 : (0 : ℝ) < ROTATION_SPEED := by norm_num [ROTATION_SPEED, FPS]
  have hrs1 : ROTATION_SPEED < 1 := by norm_num [ROTATION_SPEED, FPS]
  have h2pi : (0 : ℝ) < 2.0 * Real.pi := by linarith
  have hrot : testState.rotations.getD 0 0 = 0 := rfl
  have eL : (advance testState [missingInput]).rotations.getD 0 0 =
      2.0 * Real.pi - ROTATION_SPEED := by
    rw [advance_rotations_getD testState [missingInput] 0 (by decide),
      advancePlayer_rotation,
      show effInput (([missingInput] : List PlayerInput).getD 0 noInput) = 4 from rfl,
      hrot]
    simp only [turnRot]
    rw [if_neg (by decide : ¬(4 &&& INPUT_LEFT = 0 ∧ 4 &&& INPUT_RIGHT ≠ 0)),
      if_pos (by decide : 4 &&& INPUT_LEFT ≠ 0 ∧ 4 &&& INPUT_RIGHT = 0),
      remEuclid_of_neg (0 - ROTATION_SPEED) (2.0 * Real.pi) h2pi (by linarith) (by linarith)]
    ring
  have eR : (advance testState [rightInput]).rotations.getD 0 0 = ROTATION_SPEED := by
    rw [advance_rotations_getD testState [rightInput] 0 (by decide),
      advancePlayer_rotation,
      show effInput (([rightInput] : List PlayerInput).getD 0 noInput) = 8 from rfl,
      hrot]
    simp only [turnRot]
    rw [if_pos (by decide : 8 &&& INPUT_LEFT = 0 ∧ 8 &&& INPUT_RIGHT ≠ 0),
      if_neg (by decide : ¬(8 &&& INPUT_LEFT ≠ 0 ∧ 8 &&& INPUT_RIGHT = 0)),
      zero_add,
      remEuclid_of_mem_Ico ROTATION_SPEED (2.0 * Real.pi) h2pi hrs0.le (by linarith)]
  refine ⟨?_, ?_⟩
  · intro hlist
    have hc := congrArg (fun l => l.getD 0 (0 : ℝ)) hlist
    simp only [] at hc
    rw [eL, eR] at hc
    linarith
  · rw [eL, hrot, zero_add,
      remEuclid_of_mem_Ico ROTATION_SPEED (2.0 * Real.pi) h2pi hrs0.le (by linarith)]
    intro heq
    linarith

/-- C2 (amended): a missing input is treated exactly as the mask with only
the turn-LEFT bit set (the literal `4 = INPUT_LEFT`): the whole advance
result equals the one with the input replaced by a present turn-left-only
input, the player's rotation changes by `-ROTATION_SPEED` (wrapped), and
no thrust is applied. -/
theorem c2_missing_input_turns_left (s : State) (inputs : List PlayerInput) (i : Nat)
    (hi : i < s.num_players) (hlen : inputs.length = s.num_players)
    (hmiss : (inputs.getD i noInput).frame = NULL_FRAME) :
    advance s inputs = advance s (inputs.set i leftInput) ∧
    (advance s inputs).rotations.getD i 0 =
      remEuclid (s.rotations.getD i 0 - ROTATION_SPEED) (2.0 * Real.pi) ∧
    (advance s inputs).velocities.getD i (0, 0) =
      limitVel (frictionVel (s.velocities.getD i (0, 0))) := by
  have he : effInput (inputs.getD i noInput) = 4 := by
    unfold effInput
    rw [if_pos hmiss]
  refine ⟨?_, ?_, ?_⟩
  · have key : ∀ j ∈ List.range s.num_players,
        advancePlayer (effInput (inputs.getD j noInput)) (s.positions.getD j (0, 0))
          (s.velocities.getD j (0, 0)) (s.rotations.getD j 0) =
        advancePlayer (effInput ((inputs.set i leftInput).getD j noInput))
          (s.positions.getD j (0, 0)) (s.velocities.getD j (0, 0))
          (s.rotations.getD j 0) := by
      intro j hj
      rw [List.mem_range] at hj
      have hjlen : j < inputs.length := by rw [hlen]; exact hj
      by_cases hji : j = i
      · subst hji
        have e1 : effInput (inputs.getD j noInput) = 4 := by
          unfold effInput
          rw [if_pos hmiss]
        have e2 : effInput ((inputs.set j leftInput).getD j noInput) = 4 := by
          rw [List.getD_eq_getElem _ noInput (by rw [List.length_set]; exact hjlen),
            List.getElem_set_self]
          decide
        rw [e1, e2]
      · have e3 : (inputs.set i leftInput).getD j noInput = inputs.getD j noInput := by
          rw [List.getD_eq_getElem inputs noInput hjlen,
            List.getD_eq_getElem _ noInput (by rw [List.length_set]; exact hjlen),
            List.getElem_set_ne (fun h => hji h.symm)]
        rw [e3]
    have hmap : (List.range s.num_players).map (fun j =>
        advancePlayer (effInput (inputs.getD j noInput)) (s.positions.getD j (0, 0))
          (s.velocities.getD j (0, 0)) (s.rotations.getD j 0)) =
      (List.range s.num_players).map (fun j =>
        advancePlayer (effInput ((inputs.set i leftInput).getD j noInput))
          (s.positions.getD j (0, 0)) (s.velocities.getD j (0, 0))
          (s.rotations.getD j 0)) :=
      List.map_congr_left key
    simp only [advance, List.length_set]
    rw [hmap]
  · rw [advance_rotations_getD s inputs i hi, advancePlayer_rotation, he]
    simp only [turnRot]
    rw [if_neg (by decide : ¬(4 &&& INPUT_LEFT = 0 ∧ 4 &&& INPUT_RIGHT ≠ 0)),
      if_pos (by decide : 4 &&& INPUT_LEFT ≠ 0 ∧ 4 &&& INPUT_RIGHT = 0)]
  · rw [advance_velocities_getD s inputs i hi, advancePlayer_velocity, he]
    have h5 : thrustVel 4 (frictionVel (s.velocities.getD i (0, 0)))
        (s.rotations.getD i 0) = frictionVel (s.velocities.getD i (0, 0)) := by
      simp only [thrustVel]
      rw [if_neg (by decide : ¬(4 &&& INPUT_UP ≠ 0 ∧ 4 &&& INPUT_DOWN = 0)),
        if_neg (by decide : ¬(4 &&& INPUT_UP = 0 ∧ 4 &&& INPUT_DOWN ≠ 0))]
    rw [h5]

/-- Witness for the amended C2 at a concrete state and input vector. -/
theorem c2_missing_input_turns_left_witness :
    0 < testState.num_players ∧
    ([missingInput] : List PlayerInput).length = testState.num_players ∧
    (([missingInput] : List PlayerInput).getD 0 noInput).frame = NULL_FRAME ∧
    advance testState [missingInput] =
      advance testState (([missingInput] : List PlayerInput).set 0 leftInput) ∧
    (advance testState [missingInput]).rotations.getD 0 0 =
      remEuclid (testState.rotations.getD 0 0 - ROTATION_SPEED) (2.0 * Real.pi) ∧
    (advance testState [missingInput]).velocities.getD 0 (0, 0) =
      limitVel (frictionVel (testState.velocities.getD 0 (0, 0))) := by
  have h := c2_missing_input_turns_left testState [missingInput] 0 (by decide) rfl rfl
  exact ⟨by decide, rfl, rfl, h.1, h.2.1, h.2.2⟩

/-- C9: concrete construction for two players — `State::new 2` has frame
0, player 0 at `(width/2 + r, height/2)` with rotation `π`, player 1 at
`(width/2 - r, height/2)` with rotation `0` where `r = width/4` and
width = height = 800, both with zero velocity; one `advance` with all-zero
present inputs leaves every position and velocity unchanged. -/
theorem c9_new_two_scenario :
    ARENA_WIDTH = 800 ∧ ARENA_HEIGHT = 800 ∧
    (State.new 2).frame = 0 ∧
    (State.new 2).positions =
      [(ARENA_WIDTH / 2.0 + ARENA_WIDTH / 4.0, ARENA_HEIGHT / 2.0),
       (ARENA_WIDTH / 2.0 - ARENA_WIDTH / 4.0, ARENA_HEIGHT / 2.0)] ∧
    (State.new 2).velocities = [((0 : ℝ), (0 : ℝ)), (0, 0)] ∧
    (State.new 2).rotations = [Real.pi, 0] ∧
    (advance (State.new 2) [noInput, noInput]).positions = (State.new 2).positions ∧
    (advance (State.new 2) [noInput, noInput]).velocities = (State.new 2).velocities := by
  have hpi := Real.pi_pos
  have h2pi : (0 : ℝ) < 2.0 * Real.pi := by linarith
  have hrange2 : List.range 2 = [0, 1] := rfl
  have hpos : (State.new 2).positions =
      [(ARENA_WIDTH / 2.0 + ARENA_WIDTH / 4.0, ARENA_HEIGHT / 2.0),
       (ARENA_WIDTH / 2.0 - ARENA_WIDTH / 4.0, ARENA_HEIGHT / 2.0)] := by
    simp only [State.new, hrange2, List.map_cons, List.map_nil]
    norm_num [ARENA_WIDTH, ARENA_HEIGHT, Real.cos_zero, Real.sin_zero,
      Real.cos_pi, Real.sin_pi]
  have hvelo : (State.new 2).velocities = [((0 : ℝ), (0 : ℝ)), (0, 0)] := by
    simp only [State.new, hrange2, List.map_cons, List.map_nil]
  have hrots : (State.new 2).rotations = [Real.pi, 0] := by
    simp only [State.new, hrange2, List.map_cons, List.map_nil]
    rw [show ((0 : ℕ) : ℝ) / ((2 : ℕ) : ℝ) * 2.0 * Real.pi + Real.pi = Real.pi by
        push_cast; ring,
      show ((1 : ℕ) : ℝ) / ((2 : ℕ) : ℝ) * 2.0 * Real.pi + Real.pi = 2.0 * Real.pi by
        push_cast; ring,
      rustRem_of_mem_Ico Real.pi (2.0 * Real.pi) h2pi hpi.le (by linarith),
      rustRem_self (2.0 * Real.pi) h2pi]
  have hposN : (State.new 2).positions = [((600 : ℝ), (400 : ℝ)), (200, 400)] := by
    rw [hpos]
    norm_num [ARENA_WIDTH, ARENA_HEIGHT]
  have hpipe : ∀ rot : ℝ,
      limitVel (thrustVel 0 (frictionVel ((0 : ℝ), (0 : ℝ))) rot) = ((0 : ℝ), (0 : ℝ)) := by
    intro rot
    have hf : frictionVel ((0 : ℝ), (0 : ℝ)) = ((0 : ℝ), (0 : ℝ)) := by
      simp [frictionVel]
    have ht : thrustVel 0 ((0 : ℝ), (0 : ℝ)) rot = ((0 : ℝ), (0 : ℝ)) := by
      simp [thrustVel, INPUT_UP, INPUT_DOWN]
    rw [hf, ht]
    apply limitVel_of_le
    show Real.sqrt ((0 : ℝ) * 0 + 0 * 0) ≤ MAX_SPEED
    rw [show ((0 : ℝ) * 0 + 0 * 0) = 0 by norm_num, Real.sqrt_zero]
    norm_num [MAX_SPEED]
  have hadv : ∀ (p : ℝ × ℝ) (rot : ℝ), 0 ≤ p.1 → p.1 ≤ ARENA_WIDTH → 0 ≤ p.2 →
      p.2 ≤ ARENA_HEIGHT →
      advancePlayer 0 p ((0 : ℝ), (0 : ℝ)) rot = (p, ((0 : ℝ), (0 : ℝ)), turnRot 0 rot) := by
    intro p rot h1 h2 h3 h4
    show ((clampPos (p.1 + (limitVel (thrustVel 0 (frictionVel ((0 : ℝ), (0 : ℝ)))
          rot)).1) ARENA_WIDTH,
        clampPos (p.2 + (limitVel (thrustVel 0 (frictionVel ((0 : ℝ), (0 : ℝ)))
          rot)).2) ARENA_HEIGHT),
      limitVel (thrustVel 0 (frictionVel ((0 : ℝ), (0 : ℝ))) rot), turnRot 0 rot) =
      (p, ((0 : ℝ), (0 : ℝ)), turnRot 0 rot)
    rw [hpipe rot]
    show ((clampPos (p.1 + 0) ARENA_WIDTH, clampPos (p.2 + 0) ARENA_HEIGHT),
      ((0 : ℝ), (0 : ℝ)), turnRot 0 rot) = (p, ((0 : ℝ), (0 : ℝ)), turnRot 0 rot)
    rw [add_zero, add_zero, clampPos_of_mem p.1 ARENA_WIDTH h1 h2,
      clampPos_of_mem p.2 ARENA_HEIGHT h3 h4]
  have hkey : (List.range (State.new 2).num_players).map (fun i =>
      advancePlayer (effInput (([noInput, noInput] : List PlayerInput).getD i noInput))
        ((State.new 2).positions.getD i (0, 0)) ((State.new 2).velocities.getD i (0, 0))
        ((State.new 2).rotations.getD i 0)) =
      [(((600 : ℝ), (400 : ℝ)), ((0 : ℝ), (0 : ℝ)), turnRot 0 Real.pi),
       (((200 : ℝ), (400 : ℝ)), ((0 : ℝ), (0 : ℝ)), turnRot 0 0)] := by
    rw [show (State.new 2).num_players = 2 from rfl, hrange2]
    simp only [List.map_cons, List.map_nil]
    rw [hposN, hvelo, hrots]
    simp only [List.getD_cons_zero, List.getD_cons_succ]
    rw [show effInput noInput = 0 from rfl,
      hadv ((600 : ℝ), (400 : ℝ)) Real.pi (by norm_num) (by norm_num [ARENA_WIDTH])
        (by norm_num) (by norm_num [ARENA_HEIGHT]),
      hadv ((200 : ℝ), (400 : ℝ)) 0 (by norm_num) (by norm_num [ARENA_WIDTH])
        (by norm_num) (by norm_num [ARENA_HEIGHT])]
  refine ⟨by norm_num [ARENA_WIDTH], by norm_num [ARENA_HEIGHT], rfl, hpos, hvelo, hrots,
    ?_, ?_⟩
  · show ((List.range (State.new 2).num_players).map (fun i =>
        advancePlayer (effInput (([noInput, noInput] : List PlayerInput).getD i noInput))
          ((State.new 2).positions.getD i (0, 0)) ((State.new 2).velocities.getD i (0, 0))
          ((State.new 2).rotations.getD i 0))).map (fun t => t.1) = (State.new 2).positions
    rw [hkey, hposN]
    simp
  · show ((List.range (State.new 2).num_players).map (fun i =>
        advancePlayer (effInput (([noInput, noInput] : List PlayerInput).getD i noInput))
          ((State.new 2).positions.getD i (0, 0)) ((State.new 2).velocities.getD i (0, 0))
          ((State.new 2).rotations.getD i 0))).map (fun t => t.2.1) = (State.new 2).velocities
    rw [hkey, hvelo]
    simp

end ExGame
